import Mathlib

/-!
# Verification of the Kanban ordering core and real-time sync layer

Shallow embedding of the position-maintenance logic of
`src/backend/routers/cards.py` (card creation, deletion, same-list reorder,
cross-list move) and of the WebSocket layer `src/backend/websocket.py`
(action validation, room registry, broadcast fan-out, session teardown),
together with theorems settling the specification claims about them.

Conventions: the SQL card table is modelled as a `List Card` (row order is
immaterial to the claims; bulk `UPDATE ... WHERE` statements become `List.map`
over a row-wise conditional). Card fields not involved in ordering (title,
description, due date, ...) are omitted. Machine integers are modelled as
`Int` for positions (the code performs signed arithmetic on them and the REST
schema `CardMove.position : int` admits negative values) and `Nat` for ids.
Fallible endpoints (HTTP 404 paths) return `Option`.
-/

namespace Kanban

/-- A row of the `cards` table: only the columns the ordering logic touches
(`id`, `list_id`, `position`). -/
structure Card where
  id : Nat
  list_id : Nat
  position : Int
deriving DecidableEq, Repr

/-- The database state seen by the cards router: the set of existing list ids
(rows of the `lists` table) and the rows of the `cards` table. -/
structure BoardState where
  lists : List Nat
  cards : List Card
deriving DecidableEq, Repr

/-- `db.query(Card).filter(Card.list_id == l).count()` — the number of cards
in list `l` (cards.py lines 69-71 and 266-268). -/
def countInList (cards : List Card) (l : Nat) : Nat :=
  (cards.filter (fun c => c.list_id = l)).length

/-- `db.query(Card).filter(Card.id == card_id).first()` — lookup of a card row
by primary key. -/
def findCard (st : BoardState) (cid : Nat) : Option Card :=
  st.cards.find? (fun c => c.id = cid)

/-- `create_card` (cards.py lines 47-95), restricted to the ordering-relevant
effect: the new card is appended with `position = count of cards already in
the list`; 404 (`none`) when the list does not exist. -/
def create_card (st : BoardState) (cid : Nat) (lid : Nat) : Option BoardState :=
  if lid ∈ st.lists then
    some { st with cards := st.cards ++ [⟨cid, lid, (countInList st.cards lid : Int)⟩] }
  else
    none

/-- `delete_card` (cards.py lines 151-178): the card row is deleted and
nothing else happens to the remaining rows — in particular the positions of
later siblings are NOT shifted down. 404 (`none`) when the card does not
exist. -/
def delete_card (st : BoardState) (cid : Nat) : Option BoardState :=
  match findCard st cid with
  | none => none
  | some _ => some { st with cards := st.cards.filter (fun c => c.id ≠ cid) }

/-- `_reorder_cards_same_list` (cards.py lines 229-251). `new_position` is
used exactly as received: no clamping. The two `UPDATE` statements become the
first `map`; the final ORM write `card.position = new_position` becomes the
second `map` (keyed on the primary key). -/
def reorder_cards_same_list (cards : List Card) (c : Card) (new_position : Int) :
    List Card :=
  if new_position = c.position then cards
  else
    let shifted :=
      if new_position < c.position then
        cards.map fun x =>
          if x.list_id = c.list_id ∧ new_position ≤ x.position ∧ x.position < c.position
          then { x with position := x.position + 1 } else x
      else
        cards.map fun x =>
          if x.list_id = c.list_id ∧ c.position < x.position ∧ x.position ≤ new_position
          then { x with position := x.position - 1 } else x
    shifted.map fun x => if x.id = c.id then { x with position := new_position } else x

/-- `_move_card_to_new_list` (cards.py lines 254-281): shift the later
siblings of the old list down by one, count the destination list, clamp
`new_position` from above only (`None` or `> max_position` become
`max_position`; negative values pass through), shift the destination cards at
or after the landing position up by one, then rewrite the moved card's row. -/
def move_card_to_new_list (cards : List Card) (c : Card) (target_list_id : Nat)
    (new_position : Option Int) : List Card :=
  let afterRemove :=
    cards.map fun x =>
      if x.list_id = c.list_id ∧ c.position < x.position
      then { x with position := x.position - 1 } else x
  let max_position : Int := countInList afterRemove target_list_id
  let pos : Int :=
    match new_position with
    | none => max_position
    | some p => if p > max_position then max_position else p
  let afterShift :=
    afterRemove.map fun x =>
      if x.list_id = target_list_id ∧ pos ≤ x.position
      then { x with position := x.position + 1 } else x
  afterShift.map fun x =>
    if x.id = c.id then { x with list_id := target_list_id, position := pos } else x

/-- `move_card` (cards.py lines 183-226): look the card up (404), check the
target list exists (404), then dispatch on whether the card stays in its
list. -/
def move_card (st : BoardState) (cid : Nat) (target_list_id : Nat) (pos : Int) :
    Option BoardState :=
  match findCard st cid with
  | none => none
  | some c =>
    if target_list_id ∈ st.lists then
      if c.list_id = target_list_id then
        some { st with cards := reorder_cards_same_list st.cards c pos }
      else
        some { st with cards := move_card_to_new_list st.cards c target_list_id (some pos) }
    else
      none

/-- One core operation on the board state, as named by the specification:
`insert` = card creation, `remove` = card deletion, and `move_card` covering
both `reorder_within_container` (same list) and `move_across_containers`
(different lists). -/
inductive Op where
  | createCard (cid lid : Nat)
  | deleteCard (cid : Nat)
  | moveCard (cid target : Nat) (pos : Int)
deriving DecidableEq, Repr

/-- Run one operation; a 404 rolls the transaction back, leaving the database
unchanged. -/
def applyOp (st : BoardState) (op : Op) : BoardState :=
  match op with
  | .createCard cid lid => (create_card st cid lid).getD st
  | .deleteCard cid => (delete_card st cid).getD st
  | .moveCard cid target pos => (move_card st cid target pos).getD st

/-- Run a finite sequence of operations. -/
def applyOps (st : BoardState) (ops : List Op) : BoardState :=
  ops.foldl applyOp st

/-- The positions of the members of list `l`. -/
def positionsInList (cards : List Card) (l : Nat) : List Int :=
  (cards.filter (fun c => c.list_id = l)).map (fun c => c.position)

/-- The specification's dense-ordering invariant: in every list, the multiset
of member positions is exactly `{0, 1, ..., N-1}`. Since `positionsInList`
has length `N = countInList`, requiring each of `0..N-1` to occur exactly
once is equivalent to the multiset equality (no duplicates, no gaps). -/
def denseInvariant (st : BoardState) : Prop :=
  ∀ l ∈ st.lists, ∀ k ∈ List.range (countInList st.cards l),
    (positionsInList st.cards l).count (Int.ofNat k) = 1

instance (st : BoardState) : Decidable (denseInvariant st) := by
  unfold denseInvariant
  infer_instance

end Kanban

namespace Kanban

/-! ## Helper lemmas about the row-wise maps -/

/-- `find?` by primary key commutes with a row map that preserves the key. -/
lemma find?_map_of_id_preserved (cards : List Card) (g : Card → Card)
    (hg : ∀ x, (g x).id = x.id) (cid : Nat) :
    (cards.map g).find? (fun c => c.id = cid) =
      (cards.find? (fun c => c.id = cid)).map g := by
  induction cards with
  | nil => rfl
  | cons a l ih =>
    by_cases h : a.id = cid
    · simp [List.find?_cons, hg, h]
    · simp [List.find?_cons, hg, h, ih]

/-- A row map that preserves `list_id` preserves the per-list row count. -/
lemma countInList_map_of_list_id_preserved (cards : List Card) (g : Card → Card)
    (hg : ∀ x, (g x).list_id = x.list_id) (l : Nat) :
    countInList (cards.map g) l = countInList cards l := by
  induction cards with
  | nil => rfl
  | cons a t ih =>
    by_cases h : a.list_id = l
    · simp [countInList, List.filter_cons, hg, h] at ih ⊢; omega
    · simp [countInList, List.filter_cons, hg, h] at ih ⊢; exact ih

/-- A row map that fixes every filtered-in row and never changes the filter
verdict leaves the filtered rows untouched. -/
lemma filter_map_eq_filter (cards : List Card) (F : Card → Card) (p : Card → Bool)
    (h : ∀ x ∈ cards, p (F x) = p x ∧ (p x = true → F x = x)) :
    (cards.map F).filter p = cards.filter p := by
  induction cards with
  | nil => rfl
  | cons a t ih =>
    have ha := h a (List.mem_cons_self a t)
    have ht : ∀ x ∈ t, p (F x) = p x ∧ (p x = true → F x = x) :=
      fun x hx => h x (List.mem_cons_of_mem a hx)
    by_cases hp : p a = true
    · simp [List.filter_cons, ha.1, hp, ha.2 hp, ih ht]
    · simp only [Bool.not_eq_true] at hp
      simp [List.filter_cons, ha.1, hp, ih ht]

end Kanban

namespace Kanban

/-! ## Claim theorems about the position sequencer -/

/-- C1: the claim says that after any finite sequence of insert / remove /
reorder / move operations every list's positions form exactly `{0,...,N-1}`.
The code violates it: `delete_card` (cards.py lines 151-178) removes the row
without shifting later siblings down, so inserting A then B into list 5 and
deleting A leaves B at position 1, and the surviving positions `[1]` are not
the multiset `{0}`. The slip is internal to the code: `create_card` assigns
`position = count`, which relies on the invariant, so creating a further card
C after the deletion produces two cards both at position 1. -/
theorem delete_card_breaks_dense_invariant :
    applyOps ⟨[5], []⟩ [.createCard 1 5, .createCard 2 5, .deleteCard 1] =
      ⟨[5], [⟨2, 5, 1⟩]⟩ ∧
    ¬ denseInvariant (applyOps ⟨[5], []⟩
      [.createCard 1 5, .createCard 2 5, .deleteCard 1]) ∧
    applyOps ⟨[5], []⟩ [.createCard 1 5, .createCard 2 5, .deleteCard 1, .createCard 3 5] =
      ⟨[5], [⟨2, 5, 1⟩, ⟨3, 5, 1⟩]⟩ := by
  decide

/-- C2 counterexample: the claim says `dest_index` is clamped to
`[0, dest_count]`, which at `dest_index = -1` would insert the card at
position 0. The code (`_move_card_to_new_list`, cards.py lines 266-271)
clamps only from above: moving card 10 from list 1 (`[10@0]`) to list 2
(`[20@0]`) at index `-1` leaves the moved card at position `-1`, outside
`[0, dest_count]`. -/
theorem move_card_negative_index_not_clamped :
    move_card ⟨[1, 2], [⟨10, 1, 0⟩, ⟨20, 2, 0⟩]⟩ 10 2 (-1) =
      some ⟨[1, 2], [⟨10, 2, -1⟩, ⟨20, 2, 1⟩]⟩ ∧
    ¬ (0 : Int) ≤ (-1 : Int) := by
  decide

/-- C3 counterexample: the claim says `target_index` is clamped to
`[0, count-1]` so the moved item's position always lands in `[0, count-1]`.
The code (`_reorder_cards_same_list`, cards.py lines 229-251) never clamps:
reordering card 1 of the 3-card list `[1@0, 2@1, 3@2]` to target index 5
leaves it at position 5, outside `[0, 2]`. -/
theorem reorder_target_index_not_clamped :
    move_card ⟨[1], [⟨1, 1, 0⟩, ⟨2, 1, 1⟩, ⟨3, 1, 2⟩]⟩ 1 1 5 =
      some ⟨[1], [⟨1, 1, 5⟩, ⟨2, 1, 0⟩, ⟨3, 1, 1⟩]⟩ ∧
    ¬ (5 : Int) ≤ 3 - 1 := by
  decide

/-- C9: a same-list `move_card` whose target position equals the card's
current position is a no-op on the entire database state
(`_reorder_cards_same_list` returns immediately, cards.py lines 233-234). -/
theorem reorder_same_position_noop (st : BoardState) (cid : Nat) (c : Card)
    (pos : Int) (h1 : findCard st cid = some c) (h2 : c.list_id ∈ st.lists)
    (h3 : pos = c.position) :
    move_card st cid c.list_id pos = some st := by
  unfold move_card
  rw [h1]
  simp [if_pos h2, reorder_cards_same_list, if_pos h3]

/-- Witness for C9 at a concrete two-card state. -/
theorem reorder_same_position_noop_witness :
    findCard ⟨[1], [⟨1, 1, 0⟩, ⟨2, 1, 1⟩]⟩ 2 = some ⟨2, 1, 1⟩ ∧
    (1 : Nat) ∈ [1] ∧
    move_card ⟨[1], [⟨1, 1, 0⟩, ⟨2, 1, 1⟩]⟩ 2 1 1 =
      some ⟨[1], [⟨1, 1, 0⟩, ⟨2, 1, 1⟩]⟩ :=
  ⟨by decide, by decide,
    reorder_same_position_noop ⟨[1], [⟨1, 1, 0⟩, ⟨2, 1, 1⟩]⟩ 2 ⟨2, 1, 1⟩ 1
      (by decide) (by decide) (by decide)⟩

end Kanban

namespace Kanban

/-- C3 amended: `_reorder_cards_same_list` applies no clamping at all — for
every integer `target_index` (negative or `≥ count` included) the moved
card's resulting position is exactly `target_index`. -/
theorem reorder_moved_card_position_eq_target
    (st : BoardState) (cid : Nat) (c : Card) (pos : Int)
    (h1 : findCard st cid = some c) (h2 : c.list_id ∈ st.lists) :
    move_card st cid c.list_id pos =
      some { st with cards := reorder_cards_same_list st.cards c pos } ∧
    findCard { st with cards := reorder_cards_same_list st.cards c pos } cid =
      some { c with position := pos } := by
  have hcid : c.id = cid := by
    unfold findCard at h1
    have := List.find?_some h1
    simpa using this
  constructor
  · unfold move_card
    rw [h1]
    simp [if_pos h2]
  · unfold findCard at h1 ⊢
    simp only
    unfold reorder_cards_same_list
    by_cases hp : pos = c.position
    · rw [if_pos hp]
      subst hp
      simpa using h1
    · rw [if_neg hp]
      simp only
      by_cases hlt : pos < c.position
      · rw [if_pos hlt]
        rw [find?_map_of_id_preserved, find?_map_of_id_preserved, h1]
        · simp [hcid]
        · intro x; dsimp only; split <;> rfl
        · intro x; dsimp only; split <;> rfl
      · rw [if_neg hlt]
        rw [find?_map_of_id_preserved, find?_map_of_id_preserved, h1]
        · simp [hcid]
        · intro x; dsimp only; split <;> rfl
        · intro x; dsimp only; split <;> rfl

end Kanban

namespace Kanban

/-- C2 amended: a cross-list move first shifts every later sibling of the
source list down by one, then inserts at an effective index that is clamped
from ABOVE only — `dest_index` itself when `dest_index ≤ dest_count` (even
when negative), else `dest_count`, where `dest_count` is the destination
size before insertion — shifting every destination sibling at or after that
index up by one. -/
theorem move_card_across_lists_characterization
    (st : BoardState) (cid target : Nat) (pos : Int) (c : Card)
    (h1 : findCard st cid = some c) (h2 : target ∈ st.lists)
    (h3 : c.list_id ≠ target) :
    move_card st cid target pos =
      some { st with cards := st.cards.map fun x =>
        if x.id = c.id then
          { x with list_id := target,
                   position :=
                     if pos > (countInList st.cards target : Int)
                     then (countInList st.cards target : Int) else pos }
        else if x.list_id = c.list_id ∧ c.position < x.position then
          { x with position := x.position - 1 }
        else if x.list_id = target ∧
            (if pos > (countInList st.cards target : Int)
             then (countInList st.cards target : Int) else pos) ≤ x.position then
          { x with position := x.position + 1 }
        else x } := by
  have key : move_card_to_new_list st.cards c target (some pos) =
      st.cards.map fun x =>
        if x.id = c.id then
          { x with list_id := target,
                   position :=
                     if pos > (countInList st.cards target : Int)
                     then (countInList st.cards target : Int) else pos }
        else if x.list_id = c.list_id ∧ c.position < x.position then
          { x with position := x.position - 1 }
        else if x.list_id = target ∧
            (if pos > (countInList st.cards target : Int)
             then (countInList st.cards target : Int) else pos) ≤ x.position then
          { x with position := x.position + 1 }
        else x := by
    unfold move_card_to_new_list
    dsimp only
    rw [countInList_map_of_list_id_preserved]
    · rw [List.map_map, List.map_map]
      congr 1
      funext x
      rcases x with ⟨xid, xl, xp⟩
      simp only [Function.comp]
      by_cases hid : xid = c.id
      · by_cases hsrc : xl = c.list_id ∧ c.position < xp
        · simp [hid, hsrc, h3, Ne.symm h3]
        · by_cases hdst : xl = target ∧
              (if pos > (countInList st.cards target : Int)
               then (countInList st.cards target : Int) else pos) ≤ xp
          · simp [hid, hsrc, hdst, h3, Ne.symm h3]
          · simp [hid, hsrc, hdst, h3, Ne.symm h3]
      · by_cases hsrc : xl = c.list_id ∧ c.position < xp
        · have hnd : ¬ (xl = target) := by
            intro h; exact h3 (hsrc.1 ▸ h)
          simp [hid, hsrc, hnd, h3]
        · by_cases hdst : xl = target ∧
              (if pos > (countInList st.cards target : Int)
               then (countInList st.cards target : Int) else pos) ≤ xp
          · simp [hid, hsrc, hdst, h3, Ne.symm h3]
          · simp [hid, hsrc, hdst, h3, Ne.symm h3]
    · intro x; dsimp only; split <;> rfl
  unfold move_card
  rw [h1]
  dsimp only
  rw [if_pos h2, if_neg h3, key]

end Kanban

namespace Kanban

/-- Witness for C3 at the 3-card list, target index 5 (outside `[0, 2]`). -/
theorem reorder_moved_card_position_eq_target_witness :
    (findCard ⟨[1], [⟨1, 1, 0⟩, ⟨2, 1, 1⟩, ⟨3, 1, 2⟩]⟩ 1 = some ⟨1, 1, 0⟩ ∧
     (1 : Nat) ∈ ([1] : List Nat)) ∧
    (move_card ⟨[1], [⟨1, 1, 0⟩, ⟨2, 1, 1⟩, ⟨3, 1, 2⟩]⟩ 1 1 5 =
       some { lists := [1],
              cards := reorder_cards_same_list [⟨1, 1, 0⟩, ⟨2, 1, 1⟩, ⟨3, 1, 2⟩] ⟨1, 1, 0⟩ 5 } ∧
     findCard { lists := [1],
                cards := reorder_cards_same_list [⟨1, 1, 0⟩, ⟨2, 1, 1⟩, ⟨3, 1, 2⟩] ⟨1, 1, 0⟩ 5 } 1 =
       some ⟨1, 1, 5⟩) :=
  ⟨⟨by decide, by decide⟩,
    reorder_moved_card_position_eq_target ⟨[1], [⟨1, 1, 0⟩, ⟨2, 1, 1⟩, ⟨3, 1, 2⟩]⟩ 1
      ⟨1, 1, 0⟩ 5 (by decide) (by decide)⟩

/-- Witness for C2: the specification's own scenario — source list 1 =
`[1@0, 2@1, 3@2]`, destination list 2 = `[4@0, 5@1]`, moving card 3 to
destination index 0 yields source `[1@0, 2@1]` and destination
`[3@0, 4@1, 5@2]`. -/
theorem move_card_across_lists_characterization_witness :
    (findCard ⟨[1, 2], [⟨1, 1, 0⟩, ⟨2, 1, 1⟩, ⟨3, 1, 2⟩, ⟨4, 2, 0⟩, ⟨5, 2, 1⟩]⟩ 3 =
       some ⟨3, 1, 2⟩ ∧
     (2 : Nat) ∈ ([1, 2] : List Nat) ∧ (1 : Nat) ≠ 2) ∧
    move_card ⟨[1, 2], [⟨1, 1, 0⟩, ⟨2, 1, 1⟩, ⟨3, 1, 2⟩, ⟨4, 2, 0⟩, ⟨5, 2, 1⟩]⟩ 3 2 0 =
      some ⟨[1, 2], [⟨1, 1, 0⟩, ⟨2, 1, 1⟩, ⟨3, 2, 0⟩, ⟨4, 2, 1⟩, ⟨5, 2, 2⟩]⟩ :=
  ⟨⟨by decide, by decide, by decide⟩, by
    rw [move_card_across_lists_characterization
      ⟨[1, 2], [⟨1, 1, 0⟩, ⟨2, 1, 1⟩, ⟨3, 1, 2⟩, ⟨4, 2, 0⟩, ⟨5, 2, 1⟩]⟩ 3 2 0
      ⟨3, 1, 2⟩ (by decide) (by decide) (by decide)]
    decide⟩

end Kanban

namespace Kanban

/-- C10: `move_card` only touches the source and target lists — every card
row whose `list_id` is neither the moved card's current list nor the target
list is left completely unchanged (same `id`, `list_id` and `position`),
covering both the same-list reorder branch and the cross-list move branch. -/
theorem move_card_frame_other_lists
    (st st' : BoardState) (cid target : Nat) (pos : Int) (c : Card)
    (h1 : findCard st cid = some c)
    (hnd : (st.cards.map Card.id).Nodup)
    (hres : move_card st cid target pos = some st') :
    st'.cards.filter (fun x => x.list_id ≠ c.list_id ∧ x.list_id ≠ target) =
      st.cards.filter (fun x => x.list_id ≠ c.list_id ∧ x.list_id ≠ target) := by
  have hc_mem : c ∈ st.cards := by
    unfold findCard at h1
    exact List.mem_of_find?_eq_some h1
  have hxc : ∀ x ∈ st.cards, x.id = c.id → x = c := by
    intro x hx hid
    exact List.inj_on_of_nodup_map hnd hx hc_mem hid
  unfold move_card at hres
  rw [h1] at hres
  dsimp only at hres
  by_cases ht : target ∈ st.lists
  · rw [if_pos ht] at hres
    by_cases hsame : c.list_id = target
    · rw [if_pos hsame] at hres
      have hst : st' = { st with cards := reorder_cards_same_list st.cards c pos } :=
        (Option.some.inj hres).symm
      subst hst
      dsimp only
      unfold reorder_cards_same_list
      by_cases hp : pos = c.position
      · rw [if_pos hp]
      · rw [if_neg hp]
        dsimp only
        by_cases hlt : pos < c.position
        · rw [if_pos hlt, List.map_map]
          refine filter_map_eq_filter _ _ _ ?_
          intro x hx
          constructor
          · by_cases hid : x.id = c.id
            · have hx_eq : x = c := hxc x hx hid
              subst hx_eq
              simp [Function.comp]
            · simp only [Function.comp]
              split <;> simp [hid]
          · intro hpx
            simp only [decide_eq_true_eq] at hpx
            have hid : ¬ x.id = c.id := by
              intro hid
              exact hpx.1 ((hxc x hx hid) ▸ rfl)
            simp [Function.comp, hpx.1, hid]
        · rw [if_neg hlt, List.map_map]
          refine filter_map_eq_filter _ _ _ ?_
          intro x hx
          constructor
          · by_cases hid : x.id = c.id
            · have hx_eq : x = c := hxc x hx hid
              subst hx_eq
              simp [Function.comp]
            · simp only [Function.comp]
              split <;> simp [hid]
          · intro hpx
            simp only [decide_eq_true_eq] at hpx
            have hid : ¬ x.id = c.id := by
              intro hid
              exact hpx.1 ((hxc x hx hid) ▸ rfl)
            simp [Function.comp, hpx.1, hid]
    · rw [if_neg hsame] at hres
      have hst : st' = { st with cards := move_card_to_new_list st.cards c target (some pos) } :=
        (Option.some.inj hres).symm
      subst hst
      dsimp only
      unfold move_card_to_new_list
      dsimp only
      rw [List.map_map, List.map_map]
      refine filter_map_eq_filter _ _ _ ?_
      intro x hx
      constructor
      · by_cases hid : x.id = c.id
        · have hx_eq : x = c := hxc x hx hid
          subst hx_eq
          simp [Function.comp, hsame]
        · simp only [Function.comp]
          split_ifs <;> simp_all
      · intro hpx
        simp only [decide_eq_true_eq] at hpx
        have hid : ¬ x.id = c.id := by
          intro hid
          exact hpx.1 ((hxc x hx hid) ▸ rfl)
        simp [Function.comp, hpx.1, hpx.2, hid]
  · rw [if_neg ht] at hres
    exact absurd hres (by simp)

end Kanban

namespace Kanban

/-- Witness for C10: moving card 1 from list 1 to list 2 leaves the card of
list 3 untouched. -/
theorem move_card_frame_other_lists_witness :
    (findCard ⟨[1, 2, 3], [⟨1, 1, 0⟩, ⟨2, 2, 0⟩, ⟨3, 3, 0⟩]⟩ 1 = some ⟨1, 1, 0⟩ ∧
     (([⟨1, 1, 0⟩, ⟨2, 2, 0⟩, ⟨3, 3, 0⟩] : List Card).map Card.id).Nodup ∧
     move_card ⟨[1, 2, 3], [⟨1, 1, 0⟩, ⟨2, 2, 0⟩, ⟨3, 3, 0⟩]⟩ 1 2 0 =
       some ⟨[1, 2, 3], [⟨1, 2, 0⟩, ⟨2, 2, 1⟩, ⟨3, 3, 0⟩]⟩) ∧
    ([⟨1, 2, 0⟩, ⟨2, 2, 1⟩, ⟨3, 3, 0⟩] : List Card).filter
        (fun x => x.list_id ≠ (1 : Nat) ∧ x.list_id ≠ 2) =
      ([⟨1, 1, 0⟩, ⟨2, 2, 0⟩, ⟨3, 3, 0⟩] : List Card).filter
        (fun x => x.list_id ≠ (1 : Nat) ∧ x.list_id ≠ 2) :=
  ⟨⟨by decide, by decide, by decide⟩,
    move_card_frame_other_lists ⟨[1, 2, 3], [⟨1, 1, 0⟩, ⟨2, 2, 0⟩, ⟨3, 3, 0⟩]⟩
      ⟨[1, 2, 3], [⟨1, 2, 0⟩, ⟨2, 2, 1⟩, ⟨3, 3, 0⟩]⟩ 1 2 0 ⟨1, 1, 0⟩
      (by decide) (by decide) (by decide)⟩

end Kanban

namespace Ws

/-! ## Shallow embedding of `src/backend/websocket.py`

Connections (`WebSocket` transport handles) are modelled as `Nat` ids.
Python dictionaries become association lists; Python sets become duplicate-
free lists. Transport failure of `await connection.send_json(...)` is
parameterised by a predicate `sendFails` saying which connections' sends
raise. -/

/-- Association-list lookup (`dict.get` / `dict[...]`). -/
def lookupA {α β : Type} [DecidableEq α] (k : α) : List (α × β) → Option β
  | [] => none
  | p :: rest => if p.1 = k then some p.2 else lookupA k rest

/-- The outbound frame kinds produced by websocket.py (the `type` field and
the data fields the claims inspect; the frame's `data` payload of a
`board_update` is carried opaquely as a string). -/
inductive Frame where
  | connection_established (connected_users : Nat)
  | user_joined (user_id : String) (connected_users : Nat)
  | user_left (user_id : String) (connected_users : Nat)
  | board_update (action : String) (data : String) (user_id : String) (timestamp : Rat)
  | ack (status : String)
  | error (message : String)
deriving DecidableEq, Repr

/-- Does a frame have type `board_update`? -/
def Frame.isBoardUpdate : Frame → Bool
  | .board_update _ _ _ _ => true
  | _ => false

/-- The member values of the `ActionType` enum (websocket.py lines 17-26).
The source assigns `UPDATE_COLUMN = "delete_column"` (line 24), so the value
listed for the update-column member is the string "delete_column", not
"update_column"; `DELETE_COLUMN` (line 25) is then an alias with the same
value. -/
def actionTypeValues : List String :=
  ["create_card", "update_card", "delete_card", "move_card",
   "create_column", "delete_column", "delete_column", "cursor_move"]

/-- Pydantic validation of the `action` field: `action: ActionType` accepts a
string exactly when it is the value of some `ActionType` member. -/
def actionAccepted (a : String) : Bool :=
  actionTypeValues.contains a

/-- `ConnectionManager`'s state: `active_connections` maps a board id to the
set of connections in its room, `connection_board_map` maps a connection back
to its board (websocket.py lines 42-46). -/
structure ConnState where
  active_connections : List (String × List Nat)
  connection_board_map : List (Nat × String)
deriving DecidableEq, Repr

/-- `ConnectionManager.connect` (websocket.py lines 48-58): create the room
if absent, add the connection to it (set add), record the reverse mapping
(dict assignment replaces any previous entry). -/
def connect (st : ConnState) (websocket : Nat) (board_id : String) : ConnState :=
  let rooms0 :=
    if (lookupA board_id st.active_connections).isSome then st.active_connections
    else st.active_connections ++ [(board_id, [])]
  { active_connections :=
      rooms0.map fun p =>
        if p.1 = board_id then
          (p.1, if websocket ∈ p.2 then p.2 else p.2 ++ [websocket])
        else p,
    connection_board_map :=
      (st.connection_board_map.filter (fun q => q.1 ≠ websocket)) ++ [(websocket, board_id)] }

/-- `ConnectionManager.disconnect` (websocket.py lines 60-75): look the board
up in the reverse map; if found (and truthy — the empty string is falsy in
Python) and its room exists, discard the connection from the room and delete
the room when it becomes empty; finally remove the reverse-map entry. -/
def disconnect (st : ConnState) (websocket : Nat) : ConnState :=
  let rooms :=
    match lookupA websocket st.connection_board_map with
    | some board_id =>
      if board_id ≠ "" ∧ (lookupA board_id st.active_connections).isSome then
        st.active_connections.filterMap fun p =>
          if p.1 = board_id then
            let ms := p.2.filter (fun x => x ≠ websocket)
            if ms.isEmpty then none else some (p.1, ms)
          else some p
      else st.active_connections
    | none => st.active_connections
  { active_connections := rooms,
    connection_board_map := st.connection_board_map.filter (fun q => q.1 ≠ websocket) }

/-- `ConnectionManager.broadcast_to_board` (websocket.py lines 77-104):
return immediately when the room does not exist; otherwise iterate the
members, skipping `exclude_client`, attempting a send to each of the others
(a failure is recorded and the loop continues); after the pass, disconnect
every failed connection. Returns the new state and the list of successful
deliveries `(connection, frame)`. -/
def broadcast_to_board (st : ConnState) (message : Frame) (board_id : String)
    (exclude_client : Option Nat) (sendFails : Nat → Bool) :
    ConnState × List (Nat × Frame) :=
  match lookupA board_id st.active_connections with
  | none => (st, [])
  | some members =>
    let recipients := members.filter fun conn => some conn ≠ exclude_client
    let delivered := recipients.filter fun conn => sendFails conn = false
    let disconnected_clients := recipients.filter fun conn => sendFails conn = true
    (disconnected_clients.foldl disconnect st, delivered.map fun conn => (conn, message))

/-- `ConnectionManager.get_connected_users_count` (websocket.py lines
106-108): the size of the room, `0` for an absent room. -/
def get_connected_users_count (st : ConnState) (board_id : String) : Nat :=
  ((lookupA board_id st.active_connections).getD []).length

/-- One inbound text received by `websocket_endpoint`: either text that fails
`json.loads`, or a parsed object with the `WebSocketMessage` fields (frames
with missing or mistyped fields also surface as the validation-error branch,
subsumed here by an unaccepted `action`). -/
inductive InboundText where
  | invalidJson
  | parsed (action : String) (data : String) (board_id : String) (user_id : String)
      (timestamp : Rat)
deriving DecidableEq, Repr

/-- One iteration of the receive loop of `websocket_endpoint` (websocket.py
lines 148-202) for connection `ws` bound at connect time to `board_id` and
`user_id`: JSON and pydantic validation, the two identity checks (each
answers an `error` frame and continues), then the `board_update` broadcast to
the room excluding the sender, followed by the `ack` to the sender. The
returned state and sends are the effect of the iteration; in every branch the
connection stays registered. -/
def handle_frame (st : ConnState) (board_id user_id : String) (ws : Nat)
    (msg : InboundText) (sendFails : Nat → Bool) : ConnState × List (Nat × Frame) :=
  match msg with
  | .invalidJson => (st, [(ws, Frame.error "Invalid JSON format")])
  | .parsed act dat b u ts =>
    if actionAccepted act = false then
      (st, [(ws, Frame.error "Validation error")])
    else if b ≠ board_id then
      (st, [(ws, Frame.error "Board ID mismatch")])
    else if u ≠ user_id then
      (st, [(ws, Frame.error "User ID mismatch")])
    else
      let result := broadcast_to_board st (Frame.board_update act dat user_id ts)
        board_id (some ws) sendFails
      (result.1, result.2 ++ [(ws, Frame.ack "broadcasted")])

/-- A Python runtime error surfaced by the embedding. -/
inductive PyRuntimeError where
  | typeErrorAwaitNone
deriving DecidableEq, Repr

/-- The `finally` block of `websocket_endpoint` (websocket.py lines 217-231).
Line 219 is `await manager.disconnect(websocket)`: `manager.disconnect` is a
plain synchronous method, so the call runs (performing the room cleanup) and
returns `None`, and awaiting `None` raises
`TypeError: object NoneType cannot be used in await expression`. The
`user_left` broadcast on lines 222-231 is therefore never reached: the
teardown performs the disconnect, sends nothing, and raises. -/
def session_cleanup (st : ConnState) (websocket : Nat) (board_id user_id : String) :
    ConnState × List (Nat × Frame) × Option PyRuntimeError :=
  (disconnect st websocket, [], some PyRuntimeError.typeErrorAwaitNone)

end Ws
namespace Ws

/-- C4: the claim says the validator accepts exactly the eight documented
action strings, in particular that "update_column" passes. It does not: the
source's `ActionType.UPDATE_COLUMN` is assigned the value "delete_column"
(websocket.py line 24), so the member value set has only seven strings and a
frame declaring `action: "update_column"` is rejected with a validation
error, while the other seven documented strings are accepted. -/
theorem update_column_rejected_by_action_validation :
    actionAccepted "update_column" = false ∧
    actionAccepted "create_card" = true ∧
    actionAccepted "update_card" = true ∧
    actionAccepted "delete_card" = true ∧
    actionAccepted "move_card" = true ∧
    actionAccepted "create_column" = true ∧
    actionAccepted "delete_column" = true ∧
    actionAccepted "cursor_move" = true := by
  decide

/-- C8: the claim says every remaining room member receives a `user_left`
frame when a session ends. The teardown (`finally` block, websocket.py lines
217-231) awaits the `None` returned by the synchronous
`manager.disconnect`, which raises `TypeError` before the `user_left`
broadcast: with room "b1" = {1, 2}, ending connection 2's session removes 2
from the room but delivers no frame at all to the remaining member 1. -/
theorem session_end_sends_no_user_left :
    session_cleanup ⟨[("b1", [1, 2])], [(1, "b1"), (2, "b1")]⟩ 2 "b1" "u2" =
      (⟨[("b1", [1])], [(1, "b1")]⟩, [], some PyRuntimeError.typeErrorAwaitNone) := by
  decide

/-- C7: an inbound frame whose declared `board_id` or `user_id` differs from
the identity the connection was bound to at connect time is answered by a
single `error` frame to the sender, the connection-manager state is untouched
(the connection stays registered and open), and nothing is broadcast to any
other member. -/
theorem identity_mismatch_rejected
    (st : ConnState) (board_id user_id : String) (ws : Nat)
    (act dat b u : String) (ts : Rat) (sendFails : Nat → Bool)
    (hmm : b ≠ board_id ∨ u ≠ user_id) :
    (handle_frame st board_id user_id ws (.parsed act dat b u ts) sendFails).1 = st ∧
    ∃ m, (handle_frame st board_id user_id ws (.parsed act dat b u ts) sendFails).2 =
      [(ws, Frame.error m)] := by
  unfold handle_frame
  dsimp only
  by_cases ha : actionAccepted act = false
  · rw [if_pos ha]
    exact ⟨rfl, "Validation error", rfl⟩
  · rw [if_neg ha]
    by_cases hb : b ≠ board_id
    · rw [if_pos hb]
      exact ⟨rfl, "Board ID mismatch", rfl⟩
    · have hu : u ≠ user_id := hmm.resolve_left hb
      rw [if_neg hb, if_pos hu]
      exact ⟨rfl, "User ID mismatch", rfl⟩

/-- Witness for C7: a spoofed `board_id` ("b2" on a connection bound to
"b1") is answered by one error frame and changes nothing. -/
theorem identity_mismatch_rejected_witness :
    ((("b2" : String) ≠ "b1" ∨ ("u1" : String) ≠ "u1") ∧
     (handle_frame ⟨[("b1", [1, 2])], [(1, "b1"), (2, "b1")]⟩ "b1" "u1" 1
        (.parsed "move_card" "d" "b2" "u1" 0) (fun _ => false)).1 =
       ⟨[("b1", [1, 2])], [(1, "b1"), (2, "b1")]⟩) ∧
    ∃ m, (handle_frame ⟨[("b1", [1, 2])], [(1, "b1"), (2, "b1")]⟩ "b1" "u1" 1
        (.parsed "move_card" "d" "b2" "u1" 0) (fun _ => false)).2 =
      [(1, Frame.error m)] :=
  ⟨⟨Or.inl (by decide),
    (identity_mismatch_rejected ⟨[("b1", [1, 2])], [(1, "b1"), (2, "b1")]⟩ "b1" "u1" 1
      "move_card" "d" "b2" "u1" 0 (fun _ => false) (Or.inl (by decide))).1⟩,
    (identity_mismatch_rejected ⟨[("b1", [1, 2])], [(1, "b1"), (2, "b1")]⟩ "b1" "u1" 1
      "move_card" "d" "b2" "u1" 0 (fun _ => false) (Or.inl (by decide))).2⟩

end Ws
namespace Ws

/-! ## Lemmas for the broadcast fan-out -/

/-- Removing another connection's reverse-map entry does not change a
lookup. -/
lemma lookupA_filter_ne (cbm : List (Nat × String)) (d c : Nat) (h : c ≠ d) :
    lookupA c (cbm.filter fun q => q.1 ≠ d) = lookupA c cbm := by
  induction cbm with
  | nil => rfl
  | cons a t ih =>
    simp only [ne_eq, decide_not] at ih ⊢
    by_cases h1 : a.1 = d
    · have h2 : ¬ a.1 = c := fun hc => h (by rw [← hc, h1])
      have h3 : ¬ d = c := fun hc => h hc.symm
      simp [List.filter_cons, lookupA, h1, h2, h3, h, ih]
    · by_cases h2 : a.1 = c
      · simp [List.filter_cons, lookupA, h1, h2, h]
      · simp [List.filter_cons, lookupA, h1, h2, h, ih]

/-- Folding `disconnect` over a duplicate-free batch of members of the single
room `b` removes exactly that batch from the room; the room survives because
some member `w` is not in the batch. -/
lemma foldl_disconnect_single_room (ds : List Nat) (members : List Nat)
    (b : String) (cbm : List (Nat × String)) (hb : b ≠ "")
    (hmap : ∀ c ∈ ds, lookupA c cbm = some b) (hnd : ds.Nodup)
    (w : Nat) (hw : w ∈ members) (hwd : w ∉ ds) :
    (ds.foldl disconnect ⟨[(b, members)], cbm⟩).active_connections =
      [(b, members.filter fun c => c ∉ ds)] := by
  induction ds generalizing members cbm with
  | nil => simp
  | cons d rest ih =>
    have hd : lookupA d cbm = some b := hmap d (List.mem_cons_self d rest)
    have hwd1 : w ≠ d := fun hwdd => hwd (hwdd ▸ List.mem_cons_self d rest)
    have hwrest : w ∉ rest := fun hm => hwd (List.mem_cons_of_mem d hm)
    have hne : ((members.filter fun x => x ≠ d).isEmpty) = false := by
      have hmem : w ∈ members.filter fun x => x ≠ d :=
        List.mem_filter.mpr ⟨hw, by simp [hwd1]⟩
      cases hh : (members.filter fun x => x ≠ d).isEmpty
      · rfl
      · rw [List.isEmpty_iff] at hh
        rw [hh] at hmem
        exact absurd hmem (List.not_mem_nil w)
    have hstep : disconnect ⟨[(b, members)], cbm⟩ d =
        ⟨[(b, members.filter fun c => c ≠ d)], cbm.filter fun q => q.1 ≠ d⟩ := by
      unfold disconnect
      rw [hd]
      dsimp only
      rw [if_pos ⟨hb, by simp [lookupA]⟩]
      congr 1
      rw [List.filterMap_cons]
      dsimp only
      rw [if_pos rfl, hne]
      simp
    rw [List.foldl_cons, hstep]
    rw [ih (members.filter fun c => c ≠ d) (cbm.filter fun q => q.1 ≠ d)
      (by
        intro c hc
        have hcd : c ≠ d := by
          intro hcd
          exact (List.nodup_cons.mp hnd).1 (hcd ▸ hc)
        rw [lookupA_filter_ne _ _ _ hcd]
        exact hmap c (List.mem_cons_of_mem d hc))
      (List.nodup_cons.mp hnd).2
      (List.mem_filter.mpr ⟨hw, by simp [hwd1]⟩) hwrest]
    rw [List.filter_filter]
    have hfil : members.filter (fun a => decide (a ∉ rest) && decide (a ≠ d)) =
        members.filter (fun c => c ∉ (d :: rest)) := by
      apply List.filter_congr
      intro x hx
      by_cases hx1 : x = d
      · simp [hx1]
      · by_cases hx2 : x ∈ rest <;> simp [hx1, hx2]
    rw [hfil]

end Ws
namespace Ws

/-- Counting deliveries of one frame fanned out over a list of connections:
filtering the fan-out of frame `F` for `board_update`s addressed to `m`
counts the occurrences of `m` (and nothing when `F` is not a
`board_update`). -/
lemma length_filter_map_pair (l : List Nat) (F : Frame) (m : Nat) :
    ((l.map fun conn => (conn, F)).filter
        fun p => p.1 = m ∧ p.2.isBoardUpdate = true).length =
      if F.isBoardUpdate = true then l.count m else 0 := by
  rw [List.filter_map, List.length_map]
  by_cases hF : F.isBoardUpdate = true
  · rw [if_pos hF]
    have hq : (l.filter ((fun p => decide ((p : Nat × Frame).1 = m ∧ p.2.isBoardUpdate = true)) ∘
        fun c => (c, F))) = l.filter fun c => c == m := by
      apply List.filter_congr
      intro x hx
      by_cases h : x = m <;> simp [Function.comp, hF, h]
    rw [hq, List.count]
    rw [List.countP_eq_length_filter]
  · rw [if_neg hF]
    have hq : (l.filter ((fun p => decide ((p : Nat × Frame).1 = m ∧ p.2.isBoardUpdate = true)) ∘
        fun c => (c, F))) = [] := by
      apply List.filter_eq_nil_iff.mpr
      intro x hx
      simp [Function.comp, hF]
    rw [hq]
    rfl

end Ws

namespace Ws

/-- C5: when connection `ws` publishes a validated event into its room,
every other member `m` receives exactly one `board_update` frame, the
publisher receives no `board_update`, and the publisher receives the
`ack`. -/
theorem published_event_reaches_each_other_member_once
    (members : List Nat) (cbm : List (Nat × String)) (board user : String)
    (ws m : Nat) (act dat : String) (ts : Rat)
    (hacc : actionAccepted act = true)
    (hnd : members.Nodup) (hm : m ∈ members) (hmw : m ≠ ws) :
    (((handle_frame ⟨[(board, members)], cbm⟩ board user ws
        (.parsed act dat board user ts) (fun _ => false)).2.filter
          fun p => p.1 = m ∧ p.2.isBoardUpdate = true).length = 1) ∧
    (((handle_frame ⟨[(board, members)], cbm⟩ board user ws
        (.parsed act dat board user ts) (fun _ => false)).2.filter
          fun p => p.1 = ws ∧ p.2.isBoardUpdate = true).length = 0) ∧
    (ws, Frame.ack "broadcasted") ∈ (handle_frame ⟨[(board, members)], cbm⟩ board user ws
        (.parsed act dat board user ts) (fun _ => false)).2 := by
  have hroom : lookupA board [(board, members)] = some members := by simp [lookupA]
  have hsends : (handle_frame ⟨[(board, members)], cbm⟩ board user ws
      (.parsed act dat board user ts) (fun _ => false)).2 =
      ((members.filter fun conn => some conn ≠ some ws).map
        fun conn => (conn, Frame.board_update act dat user ts)) ++
      [(ws, Frame.ack "broadcasted")] := by
    unfold handle_frame broadcast_to_board
    dsimp only
    rw [if_neg (by simp [hacc]), if_neg (by simp), if_neg (by simp), hroom]
    dsimp only
    simp
  rw [hsends]
  refine ⟨?_, ?_, ?_⟩
  · rw [List.filter_append, List.length_append, length_filter_map_pair]
    have hack : (([(ws, Frame.ack "broadcasted")] : List (Nat × Frame)).filter
        fun p => p.1 = m ∧ p.2.isBoardUpdate = true).length = 0 := by
      simp [Frame.isBoardUpdate]
    rw [hack, if_pos (show (Frame.board_update act dat user ts).isBoardUpdate = true from rfl)]
    have hcnt : (members.filter fun conn => some conn ≠ some ws).count m = 1 := by
      rw [List.count_filter (by simp [hmw])]
      exact List.count_eq_one_of_mem hnd hm
    rw [hcnt]
  · rw [List.filter_append, List.length_append, length_filter_map_pair]
    have hack : (([(ws, Frame.ack "broadcasted")] : List (Nat × Frame)).filter
        fun p => p.1 = ws ∧ p.2.isBoardUpdate = true).length = 0 := by
      simp [Frame.isBoardUpdate]
    rw [hack, if_pos (show (Frame.board_update act dat user ts).isBoardUpdate = true from rfl)]
    have hcnt : (members.filter fun conn => some conn ≠ some ws).count ws = 0 := by
      rw [List.count_eq_zero]
      intro hmem
      have := (List.mem_filter.mp hmem).2
      simp at this
    rw [hcnt]
  · exact List.mem_append_right _ (List.mem_singleton.mpr rfl)

end Ws
namespace Ws

/-- C6: a delivery failure during a broadcast does not abort the fan-out —
every other member whose send succeeds still receives the frame — the failed
connections are disconnected only after the pass, and the room afterwards
holds exactly the surviving members, which is what the connection count then
reports. -/
theorem broadcast_failure_isolated_and_evicted
    (members : List Nat) (cbm : List (Nat × String)) (b : String) (F : Frame)
    (ws : Nat) (sendFails : Nat → Bool)
    (hb : b ≠ "") (hnd : members.Nodup) (hws : ws ∈ members)
    (hmap : ∀ c ∈ members, lookupA c cbm = some b) :
    (∀ m ∈ members, m ≠ ws → sendFails m = false →
      (m, F) ∈ (broadcast_to_board ⟨[(b, members)], cbm⟩ F b (some ws) sendFails).2) ∧
    (broadcast_to_board ⟨[(b, members)], cbm⟩ F b (some ws) sendFails).1.active_connections
      = [(b, members.filter fun c => c = ws ∨ sendFails c = false)] ∧
    get_connected_users_count
        (broadcast_to_board ⟨[(b, members)], cbm⟩ F b (some ws) sendFails).1 b =
      (members.filter fun c => c = ws ∨ sendFails c = false).length := by
  have hroom : lookupA b [(b, members)] = some members := by simp [lookupA]
  have hbc : broadcast_to_board ⟨[(b, members)], cbm⟩ F b (some ws) sendFails =
      ((((members.filter fun conn => some conn ≠ some ws).filter
          fun conn => sendFails conn = true).foldl disconnect ⟨[(b, members)], cbm⟩),
       (((members.filter fun conn => some conn ≠ some ws).filter
          fun conn => sendFails conn = false).map fun conn => (conn, F))) := by
    unfold broadcast_to_board
    rw [hroom]
  have hwsdead : ws ∉ ((members.filter fun conn => some conn ≠ some ws).filter
      fun conn => sendFails conn = true) := by
    intro hmem
    have h1 := (List.mem_filter.mp hmem).1
    have h2 := (List.mem_filter.mp h1).2
    simp at h2
  have hndd : (((members.filter fun conn => some conn ≠ some ws).filter
      fun conn => sendFails conn = true)).Nodup :=
    (hnd.filter _).filter _
  have hmapd : ∀ c ∈ (members.filter fun conn => some conn ≠ some ws).filter
      (fun conn => sendFails conn = true), lookupA c cbm = some b := by
    intro c hc
    exact hmap c (List.mem_filter.mp ((List.mem_filter.mp hc).1)).1
  have hrooms := foldl_disconnect_single_room
    ((members.filter fun conn => some conn ≠ some ws).filter fun conn => sendFails conn = true)
    members b cbm hb hmapd hndd ws hws hwsdead
  have hfil : (members.filter fun c =>
      c ∉ (members.filter fun conn => some conn ≠ some ws).filter
        (fun conn => sendFails conn = true)) =
      members.filter fun c => c = ws ∨ sendFails c = false := by
    apply List.filter_congr
    intro x hx
    by_cases hxw : x = ws
    · simp [hxw, hwsdead]
    · by_cases hxf : sendFails x = true
      · have hxd : x ∈ (members.filter fun conn => some conn ≠ some ws).filter
            (fun conn => sendFails conn = true) :=
          List.mem_filter.mpr ⟨List.mem_filter.mpr ⟨hx, by simp [hxw]⟩, by simp [hxf]⟩
        simp [hxw, hxf, hxd, hx]
      · have hxd : x ∉ (members.filter fun conn => some conn ≠ some ws).filter
            (fun conn => sendFails conn = true) := by
          intro hmem
          have := (List.mem_filter.mp hmem).2
          simp at this
          exact hxf this
        simp [hxw, hxf, hxd, hx]
  refine ⟨?_, ?_, ?_⟩
  · intro m hm hmw hmf
    rw [hbc]
    dsimp only
    apply List.mem_map.mpr
    refine ⟨m, ?_, rfl⟩
    exact List.mem_filter.mpr ⟨List.mem_filter.mpr ⟨hm, by simp [hmw]⟩, by simp [hmf]⟩
  · rw [hbc]
    dsimp only
    rw [hrooms, hfil]
  · rw [hbc]
    dsimp only
    unfold get_connected_users_count
    rw [hrooms, hfil]
    simp [lookupA]

end Ws

namespace Ws

/-- Witness for C5: in room "b1" = {1, 2, 3}, connection 2 publishes a
`move_card` event; member 1 receives exactly one `board_update`, the
publisher receives none and gets the `ack`. -/
theorem published_event_reaches_each_other_member_once_witness :
    (actionAccepted "move_card" = true ∧ ([1, 2, 3] : List Nat).Nodup ∧
     (1 : Nat) ∈ ([1, 2, 3] : List Nat) ∧ (1 : Nat) ≠ 2) ∧
    ((handle_frame ⟨[("b1", [1, 2, 3])], [(1, "b1"), (2, "b1"), (3, "b1")]⟩ "b1" "u2" 2
        (.parsed "move_card" "d" "b1" "u2" 0) (fun _ => false)).2.filter
          fun p => p.1 = 1 ∧ p.2.isBoardUpdate = true).length = 1 ∧
    ((handle_frame ⟨[("b1", [1, 2, 3])], [(1, "b1"), (2, "b1"), (3, "b1")]⟩ "b1" "u2" 2
        (.parsed "move_card" "d" "b1" "u2" 0) (fun _ => false)).2.filter
          fun p => p.1 = 2 ∧ p.2.isBoardUpdate = true).length = 0 ∧
    (2, Frame.ack "broadcasted") ∈
      (handle_frame ⟨[("b1", [1, 2, 3])], [(1, "b1"), (2, "b1"), (3, "b1")]⟩ "b1" "u2" 2
        (.parsed "move_card" "d" "b1" "u2" 0) (fun _ => false)).2 :=
  have h := published_event_reaches_each_other_member_once [1, 2, 3]
    [(1, "b1"), (2, "b1"), (3, "b1")] "b1" "u2" 2 1 "move_card" "d" 0
    (by decide) (by decide) (by decide) (by decide)
  ⟨⟨by decide, by decide, by decide, by decide⟩, h.1, h.2.1, h.2.2⟩

/-- Witness for C6: in room "b1" = {1, 2, 3}, connection 2 publishes and the
send to connection 3 fails; member 1 still receives its `board_update`,
connection 3 is evicted, and the count afterwards is 2. -/
theorem broadcast_failure_isolated_and_evicted_witness :
    (("b1" : String) ≠ "" ∧ ([1, 2, 3] : List Nat).Nodup ∧
     (2 : Nat) ∈ ([1, 2, 3] : List Nat) ∧
     ∀ c ∈ ([1, 2, 3] : List Nat),
       lookupA c [(1, "b1"), (2, "b1"), (3, "b1")] = some "b1") ∧
    (1, Frame.board_update "move_card" "d" "u2" 0) ∈
      (broadcast_to_board ⟨[("b1", [1, 2, 3])], [(1, "b1"), (2, "b1"), (3, "b1")]⟩
        (Frame.board_update "move_card" "d" "u2" 0) "b1" (some 2) (fun c => c == 3)).2 ∧
    (broadcast_to_board ⟨[("b1", [1, 2, 3])], [(1, "b1"), (2, "b1"), (3, "b1")]⟩
        (Frame.board_update "move_card" "d" "u2" 0) "b1" (some 2)
        (fun c => c == 3)).1.active_connections = [("b1", [1, 2])] ∧
    get_connected_users_count
        (broadcast_to_board ⟨[("b1", [1, 2, 3])], [(1, "b1"), (2, "b1"), (3, "b1")]⟩
          (Frame.board_update "move_card" "d" "u2" 0) "b1" (some 2)
          (fun c => c == 3)).1 "b1" = 2 :=
  have h := broadcast_failure_isolated_and_evicted [1, 2, 3]
    [(1, "b1"), (2, "b1"), (3, "b1")] "b1" (Frame.board_update "move_card" "d" "u2" 0) 2
    (fun c => c == 3) (by decide) (by decide) (by decide) (by decide)
  ⟨⟨by decide, by decide, by decide, by decide⟩,
    h.1 1 (by decide) (by decide) (by decide),
    h.2.1.trans (by decide),
    h.2.2.trans (by decide)⟩

end Ws
